import Mathlib

/-!
Shallow embedding of the replicated-I/O submission/completion engine of
`src/app/spdk_nvme_perf_rep_batch/perf_rep_batch.c` and of the host-side
latency CSV writer of `src/lib/util/latency_log.c`.

Machine integers are modelled as `Nat` with explicit `% 2^w` at the points
where the C code can wrap (`uint32_t io_id`, `uint64_t current_queue_depth`);
pointers (DMA payload bases, iovec arrays) are modelled as opaque `Nat`
addresses so that free operations can be counted.  The per-worker engine is
single-threaded in the source (all coordinator state is touched by one
thread), so its operations are modelled as pure state transformers.
-/

namespace NofRep

/-- Modulus of `uint32_t` (the type of `io_id`). -/
def U32 : Nat := 2 ^ 32

/-- Modulus of `uint64_t` (the type of `current_queue_depth`). -/
def U64 : Nat := 2 ^ 64

/-- Value of `-ENOMEM`, the transient queue-full return of `submit_io`. -/
def ENOMEM : Int := -12

/-- The recognized global configuration read by the modelled operations
(`g_rep_num`, `g_queue_depth`, `g_continue_on_error`, `g_number_ios`,
`io_num_per_second`, `batch_size`, `g_is_random`, `g_rw_percentage`). -/
structure PerfConfig where
  g_rep_num : Nat
  g_queue_depth : Nat
  g_continue_on_error : Bool
  g_number_ios : Nat
  io_num_per_second : Nat
  batch_size : Nat
  g_is_random : Bool
  g_rw_percentage : Int
deriving DecidableEq

/-- The fields of `struct ns_entry` consumed by offset generation in
`submit_single_io_rep`: whether a Zipf state is attached, and
`size_in_ios`.  `io_size_blocks` is kept for the LBA computation of
`nvme_submit_io`. -/
structure NsEntry where
  has_zipf : Bool
  size_in_ios : Nat
  io_size_blocks : Nat
deriving DecidableEq

/-- The two fields of `struct ns_worker_stats` that the claims are about. -/
structure NsWorkerStats where
  io_submitted : Nat
  io_completed : Nat
deriving DecidableEq

/-- One sibling descriptor (`struct perf_task`).  `ctx` is the index of its
`ns_worker_ctx`; `iov_base` is the address of `iovs[0].iov_base`,
`iovs_ptr` the address of the `iovs` array itself, `md_base` the address of
`md_iov.iov_base`.  A copy sibling shares `iov_base` and `md_base` with the
primary but has its own `iovs_ptr` (`copy_task` allocates a fresh iovec
array and bitwise-copies the entries). -/
structure PerfTask where
  io_id : Nat
  ns_id : Nat
  ctx : Nat
  iov_base : Nat
  iovs_ptr : Nat
  md_base : Nat
  offset_in_ios : Nat
  is_read : Bool
deriving DecidableEq, Inhabited

/-- Per-(worker, namespace) mutable state (`struct ns_worker_ctx`), restricted
to the fields the claims are about.  `queued_tasks` holds siblings whose
submission failed and that wait for resubmission. -/
structure NsWorkerCtx where
  stats : NsWorkerStats
  current_queue_depth : Nat
  offset_in_ios : Nat
  is_draining : Bool
  status : Nat
  queued_tasks : List PerfTask
deriving DecidableEq

instance : Inhabited NsWorkerCtx :=
  ⟨⟨⟨0, 0⟩, 0, 0, false, 0, []⟩⟩

/-- One logical I/O: the `rep_tasks` sibling list (which contains the primary
itself, at position `main_idx`), and the fan-in counter
`rep_completed_num`.  In the C source the primary *is* a list member and
`main_task` points at it; here the primary is identified by its index so
that an update through the list and an update through `main_task` cannot
diverge. -/
structure RepGroup where
  rep_tasks : List PerfTask
  main_idx : Nat
  rep_completed_num : Nat
deriving DecidableEq

/-- Dereference of `main_task`: the primary sibling of the group. -/
def RepGroup.main_task (g : RepGroup) : PerfTask :=
  g.rep_tasks.getD g.main_idx default

/-- Model of `allocate_main_task` (perf_rep_batch.c:1909): a fresh primary whose
sibling list contains only itself, with `rep_completed_num = 0`. -/
def allocate_main_task (io_id ns_id ctx iov_base iovs_ptr md_base : Nat) :
    RepGroup :=
  let task : PerfTask :=
    { io_id := io_id, ns_id := ns_id, ctx := ctx, iov_base := iov_base,
      iovs_ptr := iovs_ptr, md_base := md_base, offset_in_ios := 0,
      is_read := false }
  { rep_tasks := [task], main_idx := 0, rep_completed_num := 0 }

/-- Model of `copy_task` (perf_rep_batch.c:1940): a copy sibling that borrows the
primary's `iov_base` and `md_iov` (the iovec entries are bitwise-copied, so
`iov_base` is shared), gets its own iovec array `iovs_ptr`, takes the
primary's `io_id`, and is appended to the primary's `rep_tasks` list. -/
def copy_task (g : RepGroup) (ctx ns_id iovs_ptr : Nat) : RepGroup :=
  let m := g.main_task
  let task_copy : PerfTask :=
    { io_id := m.io_id, ns_id := ns_id, ctx := ctx, iov_base := m.iov_base,
      iovs_ptr := iovs_ptr, md_base := m.md_base, offset_in_ios := 0,
      is_read := false }
  { g with rep_tasks := g.rep_tasks ++ [task_copy] }

/-- One call of the transport vtable's `submit_io`, as observed by the
embedding: the target context, the `offset_in_ios` argument that was
passed, and whether that context's `is_draining` flag was set at the moment
of the call. -/
structure SubmitCall where
  ctx : Nat
  offset_arg : Nat
  draining_at_call : Bool
deriving DecidableEq

/-- Result of running one submission attempt against one context. -/
structure SubmitSingleResult where
  ctx : NsWorkerCtx
  freed : List Nat
  call : SubmitCall
deriving DecidableEq

/-- The return-code handling shared verbatim by `submit_single_io`
(perf_rep_batch.c:1671) and the per-sibling body of `submit_single_io_rep`
(perf_rep_batch.c:1739): on `rc != 0`, if `g_continue_on_error` the task is
appended to the context's `queued_tasks` (nothing freed), otherwise
`iovs[0].iov_base`, the `iovs` array and `md_iov.iov_base` are freed and
`status` is set to 1; on `rc == 0` `current_queue_depth` and
`stats.io_submitted` are incremented.  Afterwards, if `g_number_ios` is set
and the context has submitted that many, the context is marked draining. -/
def submit_io_rc_handling (cfg : PerfConfig) (c : NsWorkerCtx)
    (task : PerfTask) (rc : Int) : NsWorkerCtx × List Nat :=
  let (c, freed) :=
    if rc ≠ 0 then
      if cfg.g_continue_on_error then
        ({ c with queued_tasks := c.queued_tasks ++ [task] }, [])
      else
        ({ c with status := 1 }, [task.iov_base, task.iovs_ptr, task.md_base])
    else
      ({ c with
          current_queue_depth := (c.current_queue_depth + 1) % U64,
          stats := { c.stats with io_submitted := c.stats.io_submitted + 1 } },
        [])
  let c :=
    if cfg.g_number_ios ≠ 0 ∧ cfg.g_number_ios ≤ c.stats.io_submitted then
      { c with is_draining := true }
    else c
  (c, freed)

/-- Model of `submit_single_io` (perf_rep_batch.c:1658), the path used to resubmit a
queued sibling.  The C function declares a local `uint64_t offset_in_ios`
and passes it to `fn_table->submit_io` *without ever assigning it* (it does
not read `task->offset_in_ios`); that indeterminate stack value is modelled
as the unconstrained parameter `stack_offset_in_ios`.  `rc` is the value
returned by the transport. -/
def submit_single_io (cfg : PerfConfig) (c : NsWorkerCtx) (task : PerfTask)
    (stack_offset_in_ios : Nat) (rc : Int) : SubmitSingleResult :=
  let call : SubmitCall :=
    { ctx := task.ctx, offset_arg := stack_offset_in_ios,
      draining_at_call := c.is_draining }
  let (c, freed) := submit_io_rc_handling cfg c task rc
  { ctx := c, freed := freed, call := call }

/-- Read a context out of the per-worker context table. -/
def getCtx (ctxs : List NsWorkerCtx) (i : Nat) : NsWorkerCtx :=
  ctxs.getD i default

/-- Overwrite a context in the per-worker context table. -/
def setCtx (ctxs : List NsWorkerCtx) (i : Nat) (c : NsWorkerCtx) :
    List NsWorkerCtx :=
  ctxs.set i c

/-- The external nondeterminism consumed by one emission: the value a
`spdk_zipf_generate` call would return, the two `rand_r` draws (offset and
read/write), and the return code the transport gives each sibling's
`submit_io`, by position in the sibling list. -/
structure SubmitOracle where
  zipf_val : Nat
  rand_off : Nat
  rand_rw : Nat
  rc : Nat → Int

/-- The shared `(offset_in_ios, is_read)` computation at the top of
`submit_single_io_rep` (perf_rep_batch.c:1709-1725), performed once per
emission from the *primary's* namespace policy: Zipf if attached, else
`rand_r % size_in_ios` if random, else the primary context's sequential
cursor post-incremented and wrapped to 0 at `min_size_in_ios`.  Read iff
`g_rw_percentage == 100`, or `g_rw_percentage != 0` and the draw
`rand_r % 100` is below it.  Returns the tuple and the updated primary
context. -/
def shared_offset_rw (cfg : PerfConfig) (main_entry : NsEntry)
    (min_size_in_ios : Nat) (ora : SubmitOracle) (main_ctx : NsWorkerCtx) :
    Nat × Bool × NsWorkerCtx :=
  let (offset_in_ios, main_ctx) :=
    if main_entry.has_zipf then
      (ora.zipf_val, main_ctx)
    else if cfg.g_is_random then
      (ora.rand_off % main_entry.size_in_ios, main_ctx)
    else
      let off := main_ctx.offset_in_ios
      let next := off + 1
      let next := if next = min_size_in_ios then 0 else next
      (off, { main_ctx with offset_in_ios := next })
  let is_read :=
    cfg.g_rw_percentage = 100 ∨
      (cfg.g_rw_percentage ≠ 0 ∧ (ora.rand_rw % 100 : Int) < cfg.g_rw_percentage)
  (offset_in_ios, decide is_read, main_ctx)

/-- Result of the sibling walk of `submit_single_io_rep`: the updated context
table, the updated sibling list, the addresses freed, and the `submit_io`
calls made, in order. -/
structure RepWalkResult where
  ctxs : List NsWorkerCtx
  rep_tasks : List PerfTask
  freed : List Nat
  calls : List SubmitCall
deriving DecidableEq

/-- The `TAILQ_FOREACH` body of `submit_single_io_rep`
(perf_rep_batch.c:1727-1764): each sibling, in list order, gets the shared
`offset_in_ios` and `is_read` stored into it and is handed to its own
context's `submit_io` with the shared offset; the return code is handled by
`submit_io_rc_handling`.  `pos` is the sibling's position, used to index
the oracle's return codes. -/
def rep_walk (cfg : PerfConfig) (rc : Nat → Int) (offset_in_ios : Nat)
    (is_read : Bool) : Nat → List NsWorkerCtx → List PerfTask → RepWalkResult
  | _, ctxs, [] =>
      { ctxs := ctxs, rep_tasks := [], freed := [], calls := [] }
  | pos, ctxs, task :: rest =>
      let task := { task with offset_in_ios := offset_in_ios, is_read := is_read }
      let c := getCtx ctxs task.ctx
      let call : SubmitCall :=
        { ctx := task.ctx, offset_arg := offset_in_ios,
          draining_at_call := c.is_draining }
      let (c, freed) := submit_io_rc_handling cfg c task (rc pos)
      let ctxs := setCtx ctxs task.ctx c
      let r := rep_walk cfg rc offset_in_ios is_read (pos + 1) ctxs rest
      { ctxs := r.ctxs, rep_tasks := task :: r.rep_tasks,
        freed := freed ++ r.freed, calls := call :: r.calls }

/-- Model of `submit_single_io_rep` (perf_rep_batch.c:1691): computes the shared
`(offset_in_ios, is_read)` tuple exactly once from the primary's policy,
then walks the sibling list in order submitting each sibling with that
shared offset. -/
def submit_single_io_rep (cfg : PerfConfig) (main_entry : NsEntry)
    (min_size_in_ios : Nat) (ora : SubmitOracle) (ctxs : List NsWorkerCtx)
    (g : RepGroup) : RepWalkResult × RepGroup :=
  let m := g.main_task
  let (offset_in_ios, is_read, main_ctx) :=
    shared_offset_rw cfg main_entry min_size_in_ios ora (getCtx ctxs m.ctx)
  let ctxs := setCtx ctxs m.ctx main_ctx
  let r := rep_walk cfg ora.rc offset_in_ios is_read 0 ctxs g.rep_tasks
  (r, { g with rep_tasks := r.rep_tasks })

/-- Model of `rep_task_release` (perf_rep_batch.c:1772): frees the DMA payload
(`iovs[0].iov_base`) and metadata buffer once, through the primary
(`main_task`), then every sibling's iovec array.  The freed addresses are
returned in free order. -/
def rep_task_release (g : RepGroup) : List Nat :=
  g.main_task.iov_base :: g.main_task.md_base ::
    g.rep_tasks.map (fun t => t.iovs_ptr)

/-- What `task_complete` decided to do with the logical I/O. -/
inductive CompleteAction where
  /-- Case `rep_completed_num < g_rep_num`: return, nothing else happens. -/
  | pending
  /-- N-th completion, some sibling's context draining: the whole replica
  group is released. -/
  | released
  /-- N-th completion, no context draining, rate limiter off: the logical
  I/O is re-submitted through `submit_single_io_rep`. -/
  | reissued
  /-- N-th completion, no context draining, rate limiter on: the primary is
  appended to the pending FIFO and `batch` is incremented. -/
  | pushed_to_fifo
deriving DecidableEq

/-- The draining check and `io_id` reassignment walk of `task_complete`
(perf_rep_batch.c:1861-1868): siblings are visited in list order; if one's
context is draining the group is released (`none`); otherwise every sibling
receives the new `io_id`. -/
def assign_ids_or_release (ctxs : List NsWorkerCtx) (io_id : Nat) :
    List PerfTask → Option (List PerfTask)
  | [] => some []
  | t :: ts =>
      if (getCtx ctxs t.ctx).is_draining then none
      else
        match assign_ids_or_release ctxs io_id ts with
        | none => none
        | some ts' => some ({ t with io_id := io_id } :: ts')

/-- Result of the synchronization part of `task_complete`. -/
structure TaskCompleteResult where
  ctxs : List NsWorkerCtx
  group : RepGroup
  action : CompleteAction
  freed : List Nat
deriving DecidableEq

/-- The unconditional per-context bookkeeping at the top of `task_complete`
(perf_rep_batch.c:1802-1803): `current_queue_depth--` (uint64, may wrap)
and `stats.io_completed++`. -/
def task_complete_ctx_part (c : NsWorkerCtx) : NsWorkerCtx :=
  { c with
      current_queue_depth := (c.current_queue_depth + (U64 - 1)) % U64,
      stats := { c.stats with io_completed := c.stats.io_completed + 1 } }

/-- Model of `task_complete` (perf_rep_batch.c:1792), for the completing sibling
`task` of group `g`: after the per-context bookkeeping, the primary's
`rep_completed_num` is incremented; below `g_rep_num` nothing else happens;
at `g_rep_num` the counter is reset to 0, the next `io_id` is computed as
`main_task->io_id + g_queue_depth` in `uint32` (replaced by 1 when the sum
is 0), and the sibling walk either releases the group (a context is
draining) or assigns the new id to every sibling and reissues the logical
I/O, directly when the rate limiter is off, through the pending FIFO when
it is on. -/
def task_complete (cfg : PerfConfig) (ctxs : List NsWorkerCtx)
    (task : PerfTask) (g : RepGroup) : TaskCompleteResult :=
  let ctxs := setCtx ctxs task.ctx (task_complete_ctx_part (getCtx ctxs task.ctx))
  let g := { g with rep_completed_num := g.rep_completed_num + 1 }
  if g.rep_completed_num < cfg.g_rep_num then
    { ctxs := ctxs, group := g, action := .pending, freed := [] }
  else
    let g := { g with rep_completed_num := 0 }
    let io_id := (g.main_task.io_id + cfg.g_queue_depth) % U32
    let io_id := if io_id = 0 then 1 else io_id
    match assign_ids_or_release ctxs io_id g.rep_tasks with
    | none =>
        { ctxs := ctxs, group := g, action := .released,
          freed := rep_task_release g }
    | some tasks =>
        let g := { g with rep_tasks := tasks }
        if cfg.io_num_per_second = 0 then
          { ctxs := ctxs, group := g, action := .reissued, freed := [] }
        else
          { ctxs := ctxs, group := g, action := .pushed_to_fifo, freed := [] }

/-- The error branch of the `io_complete` callback
(perf_rep_batch.c:1887-1903) for a completion that failed with
`SPDK_NVME_SCT_GENERIC / SPDK_NVME_SC_INVALID_NAMESPACE_OR_FORMAT` (device
hot-removed) while `g_continue_on_error` is off: the sibling's context is
marked draining and its status set to 1 (then `task_complete` runs). -/
def io_complete_hotplug_error (ctxs : List NsWorkerCtx) (i : Nat) :
    List NsWorkerCtx :=
  setCtx ctxs i { getCtx ctxs i with is_draining := true, status := 1 }

/-- Model of `cleanup_ns_worker_ctx` (perf_rep_batch.c:2039) restricted to the
accounting of the context being cleaned: each entry of `queued_tasks` is
removed and handed to `task_complete`, whose unconditional part decrements
`current_queue_depth` and increments `stats.io_completed`.  (The reissue
branch of `task_complete` cannot fire during cleanup: `work_fn` has already
forced every context's `is_draining` to true, so an N-th completion
releases instead of resubmitting, which leaves this context's counters
untouched beyond the unconditional part.) -/
def cleanup_ns_worker_ctx (c : NsWorkerCtx) : NsWorkerCtx :=
  let c' := c.queued_tasks.foldl (fun acc _ => task_complete_ctx_part acc) c
  { c' with queued_tasks := [] }

/-- Outcome of the rate gate's FIFO drain. -/
inductive GateOutcome where
  /-- The `while` loop exited with `submit_batch = batch_size`; the listed
  groups were popped and submitted. -/
  | ok (fifo : List RepGroup) (submit_batch : Nat) (popped : List RepGroup)
  /-- The loop read `perf_task_link_head->next == NULL` and then dereferenced
  it (`temp_perf_task_link->task`). -/
  | null_deref (popped : List RepGroup)
deriving DecidableEq

/-- The FIFO drain of the rate gate in `work_fn`
(perf_rep_batch.c:2195-2206), recursing on the remaining budget
`batch_size - submit_batch` (the loop guard `submit_batch < batch_size` is
exactly `0 < remaining`, and `submit_batch++` decrements it): while the
budget is positive, the head entry is read; when non-null it is unlinked;
then — unconditionally — `temp_perf_task_link->task` is passed to
`submit_single_io_rep`.  The empty-FIFO iteration therefore dereferences a
null pointer, modelled as `GateOutcome.null_deref`. -/
def gate_drain_aux (remaining submit_batch : Nat) (fifo : List RepGroup)
    (popped : List RepGroup) : GateOutcome :=
  match remaining with
  | 0 => .ok fifo submit_batch popped
  | r + 1 =>
      match fifo with
      | [] => .null_deref popped
      | g :: rest => gate_drain_aux r (submit_batch + 1) rest (popped ++ [g])

/-- The rate gate's FIFO drain, entered with the live `submit_batch` counter
and `batch_size` as in the source while-loop. -/
def gate_drain (submit_batch batch_size : Nat) (fifo : List RepGroup)
    (popped : List RepGroup) : GateOutcome :=
  gate_drain_aux (batch_size - submit_batch) submit_batch fifo popped

/-- Result of the queued-task resubmission loop of `work_fn`. -/
structure ResubmitResult where
  ctx : NsWorkerCtx
  freed : List Nat
  calls : List SubmitCall
deriving DecidableEq

/-- The inner drain of the swapped `queued_tasks` list
(perf_rep_batch.c:2168-2177): each popped task is re-queued untouched when
the context is (or has become) draining, and otherwise resubmitted through
`submit_single_io`.  `pos` indexes the oracles for the uninitialized stack
offset and the transport return code. -/
def resubmit_swapped (cfg : PerfConfig) (stack : Nat → Nat) (rc : Nat → Int) :
    Nat → NsWorkerCtx → List PerfTask → ResubmitResult
  | _, c, [] => { ctx := c, freed := [], calls := [] }
  | pos, c, task :: rest =>
      if c.is_draining then
        let c := { c with queued_tasks := c.queued_tasks ++ [task] }
        resubmit_swapped cfg stack rc (pos + 1) c rest
      else
        let r := submit_single_io cfg c task (stack pos) (rc pos)
        let rec' := resubmit_swapped cfg stack rc (pos + 1) r.ctx rest
        { ctx := rec'.ctx, freed := r.freed ++ rec'.freed,
          calls := r.call :: rec'.calls }

/-- The queued-task resubmission step of `work_fn`
(perf_rep_batch.c:2164-2177): only runs when `g_continue_on_error` is set
and the context is not draining; it swaps `queued_tasks` into a local list
and drains that list through `resubmit_swapped`. -/
def resubmit_queued_tasks (cfg : PerfConfig) (stack : Nat → Nat)
    (rc : Nat → Int) (c : NsWorkerCtx) : ResubmitResult :=
  if cfg.g_continue_on_error ∧ ¬c.is_draining then
    let swap := c.queued_tasks
    let c := { c with queued_tasks := [] }
    resubmit_swapped cfg stack rc 0 c swap
  else
    { ctx := c, freed := [], calls := [] }

/-- The two signed fields of `struct timespec` that the C code manipulates. -/
structure Timespec where
  tv_sec : Int
  tv_nsec : Int
deriving DecidableEq

/-- The zero timespec. -/
def Timespec.zero : Timespec := ⟨0, 0⟩

/-- Model of `timespec_add` (latency_log.c:378): componentwise sum with one carry when
the nanosecond field reaches `10^9`. -/
def timespec_add (a b : Timespec) : Timespec :=
  let sec := a.tv_sec + b.tv_sec
  let nsec := a.tv_nsec + b.tv_nsec
  if nsec ≥ 1000000000 then ⟨sec + 1, nsec - 1000000000⟩ else ⟨sec, nsec⟩

/-- Model of `timespec_divide` (latency_log.c:389): C `long` division (truncation
toward zero, `Int.tdiv`/`Int.tmod`) of a timespec by `num`; when `num ≤ 0`
the function returns `-1` and leaves the timespec unchanged, which is
modelled by returning the input. -/
def timespec_divide (ts : Timespec) (num : Int) : Timespec :=
  if num ≤ 0 then ts
  else
    let sec_result := Int.tdiv ts.tv_sec num
    let sec_remainder := Int.tmod ts.tv_sec num
    let nsec_result := Int.tdiv ts.tv_nsec num
    let nsec_remainder := Int.tmod ts.tv_nsec num
    let remainder_nsec_as_sec := sec_remainder * 1000000000 + nsec_remainder
    let nsec_result := nsec_result + Int.tdiv remainder_nsec_as_sec num
    let sec_result := sec_result + Int.tdiv nsec_result 1000000000
    let nsec_result := Int.tmod nsec_result 1000000000
    ⟨sec_result, nsec_result⟩

/-- One `struct latency_log` accumulator: a summed duration and a count. -/
structure LatencyLog where
  latency_time : Timespec
  io_num : Nat
deriving DecidableEq

/-- The zero accumulator (what `cleanup_log` writes). -/
def LatencyLog.zero : LatencyLog := ⟨Timespec.zero, 0⟩

/-- One `struct latency_ns_log` row: the six per-stage accumulators of one
namespace. -/
structure LatencyNsLog where
  task_queue_latency : LatencyLog
  task_complete_latency : LatencyLog
  req_send_latency : LatencyLog
  req_complete_latency : LatencyLog
  wr_send_latency : LatencyLog
  wr_complete_latency : LatencyLog
deriving DecidableEq

instance : Inhabited LatencyNsLog :=
  ⟨⟨LatencyLog.zero, LatencyLog.zero, LatencyLog.zero, LatencyLog.zero,
    LatencyLog.zero, LatencyLog.zero⟩⟩

/-- The six stage names, in the emission order of
`write_log_tasks_to_file`. -/
inductive StageName where
  | task_queue
  | task_complete
  | req_send
  | req_complete
  | wr_send
  | wr_complete
deriving DecidableEq

/-- One emitted CSV data row:
`id, ns_id, stage_name, latency, io_num, average`. -/
structure CsvRow where
  id : Nat
  ns_id : Nat
  name : StageName
  latency : Timespec
  io_num : Nat
  avg : Timespec
deriving DecidableEq

/-- One line written to the host CSV file. -/
inductive CsvLine where
  | header
  | row (r : CsvRow)
  | blank
deriving DecidableEq

/-- Model of `fprint_log` (latency_log.c:148): one data row; the `id` column is
`num / namespace_num`, the average is `timespec_divide` of the latency by
the io count (left as the latency itself when the count is 0, since
`timespec_divide` rejects `num ≤ 0`). -/
def fprint_log (namespace_num : Nat) (i num : Nat) (name : StageName)
    (latency : Timespec) (io_num : Nat) : CsvLine :=
  .row
    { id := num / namespace_num, ns_id := i, name := name, latency := latency,
      io_num := io_num, avg := timespec_divide latency (io_num : Int) }

/-- The `static` file state of `write_log_tasks_to_file`: whether the file
has been opened before (`if_open`, controls the header line) and the call
counter `num`. -/
structure LogFileState where
  if_open : Bool
  num : Nat
deriving DecidableEq

/-- Model of `write_log_tasks_to_file` (latency_log.c:162): on the first ever call
the header line is written; then the six stage rows, in the order
`task_queue, task_complete, req_send, req_complete, wr_send, wr_complete` —
the `wr_send` row is printed with `wr_complete_io_num` as its count
(latency_log.c:186, faithful to the source) — followed by a blank line iff
`new_line` was passed. -/
def write_log_tasks_to_file (namespace_num : Nat) (st : LogFileState)
    (i : Nat)
    (task_queue_io_num : Nat) (task_queue_latency : Timespec)
    (task_complete_io_num : Nat) (task_complete_latency : Timespec)
    (req_send_io_num : Nat) (req_send_latency : Timespec)
    (req_complete_io_num : Nat) (req_complete_latency : Timespec)
    (_wr_send_io_num : Nat) (wr_send_latency : Timespec)
    (wr_complete_io_num : Nat) (wr_complete_latency : Timespec)
    (new_line : Bool) : LogFileState × List CsvLine :=
  let head : List CsvLine := if st.if_open then [] else [.header]
  let n := st.num
  let rows : List CsvLine :=
    [fprint_log namespace_num i n .task_queue task_queue_latency task_queue_io_num,
     fprint_log namespace_num i n .task_complete task_complete_latency task_complete_io_num,
     fprint_log namespace_num i n .req_send req_send_latency req_send_io_num,
     fprint_log namespace_num i n .req_complete req_complete_latency req_complete_io_num,
     fprint_log namespace_num i n .wr_send wr_send_latency wr_complete_io_num,
     fprint_log namespace_num i n .wr_complete wr_complete_latency wr_complete_io_num]
  let tail : List CsvLine := if new_line then [.blank] else []
  ({ if_open := true, num := st.num + 1 }, head ++ rows ++ tail)

/-- The body of the `write_latency_tasks_log` loop for one namespace index
`i` (latency_log.c:248-254): the six accumulator pairs of row `i` are
passed field by field, with `new_line` set only for the last namespace. -/
def write_latency_tasks_log_step (namespace_num : Nat) (st : LogFileState)
    (d : LatencyNsLog) (i : Nat) : LogFileState × List CsvLine :=
  write_log_tasks_to_file namespace_num st i
    d.task_queue_latency.io_num d.task_queue_latency.latency_time
    d.task_complete_latency.io_num d.task_complete_latency.latency_time
    d.req_send_latency.io_num d.req_send_latency.latency_time
    d.req_complete_latency.io_num d.req_complete_latency.latency_time
    d.wr_send_latency.io_num d.wr_send_latency.latency_time
    d.wr_complete_latency.io_num d.wr_complete_latency.latency_time
    (i = namespace_num - 1)

/-- Model of `write_latency_tasks_log` (latency_log.c:243): processes one aggregation
message — an array of `namespace_num` rows — calling
`write_log_tasks_to_file` for `i = 0 .. namespace_num - 1`. -/
def write_latency_tasks_log (namespace_num : Nat)
    (latency_log_namespaces : List LatencyNsLog) (st : LogFileState) :
    LogFileState × List CsvLine :=
  (List.range namespace_num).foldl
    (fun (acc : LogFileState × List CsvLine) i =>
      let r := write_latency_tasks_log_step namespace_num acc.1
        (latency_log_namespaces.getD i default) i
      (r.1, acc.2 ++ r.2))
    (st, [])

/-- An event of the latency-aggregation pipeline.  Every branch is a single
critical section of the one `log_mutex` in the source — the accumulator
updates of `nvme_submit_io` (perf_rep_batch.c:987-992, `task_queue`) and
`task_complete` (perf_rep_batch.c:1827-1832, `task_complete`), and the 1 Hz
sampler `latency_log_1s` (latency_log.c:312-324) — so an interleaving of
threads is a sequence of these events run atomically in some order. -/
inductive LogEvent where
  /-- Add a measured duration to namespace `ns`'s accumulator (done under
  `pthread_mutex_lock(&log_mutex)` in the source). -/
  | record (ns : Nat) (dur : Timespec)
  /-- One firing of `latency_log_1s`: under the mutex, if any accumulator's
  `io_num` is non-zero, snapshot all rows into a fresh message, post it, and
  zero the accumulators. -/
  | tick


/-- State of the aggregation pipeline: the in-memory accumulators
(`latency_msg.latency_log_namespaces[i]`, one cell per namespace modelled
for one stage) and the messages posted to the SysV queue so far. -/
structure LogPipelineState where
  acc : Nat → LatencyLog
  posted : List (Nat → LatencyLog)

/-- The initial pipeline state: zeroed accumulators, no message posted. -/
def logPipelineInit : LogPipelineState :=
  { acc := fun _ => LatencyLog.zero, posted := [] }

/-- Model of `is_io_num_not_empty` (latency_log.c:299): some namespace below
`namespace_num` has a non-zero count. -/
def is_io_num_not_empty (namespace_num : Nat) (acc : Nat → LatencyLog) : Bool :=
  (List.range namespace_num).any (fun i => (acc i).io_num ≠ 0)

/-- Run one pipeline event.  `record ns dur` is the mutex-protected
`timespec_add` plus `io_num++` on row `ns`; `tick` is `latency_log_1s`:
when some count is non-zero, `copy_latency_ns_log` snapshots the rows,
`msgsnd` posts the snapshot, and `cleanup_log` zeroes the rows, all inside
the same critical section. -/
def logPipelineStep (namespace_num : Nat) (s : LogPipelineState) :
    LogEvent → LogPipelineState
  | .record ns dur =>
      { s with
          acc := fun i =>
            if i = ns then
              ⟨timespec_add (s.acc i).latency_time dur, (s.acc i).io_num + 1⟩
            else s.acc i }
  | .tick =>
      if is_io_num_not_empty namespace_num s.acc then
        { acc := fun _ => LatencyLog.zero, posted := s.posted ++ [s.acc] }
      else s

/-- Run a whole event trace from the initial state. -/
def logPipelineRun (namespace_num : Nat) (evs : List LogEvent) :
    LogPipelineState :=
  evs.foldl (logPipelineStep namespace_num) logPipelineInit

/-- Total signed nanoseconds of a timespec; `timespec_add` is exact for this
measure. -/
def Timespec.nanos (t : Timespec) : Int := t.tv_sec * 1000000000 + t.tv_nsec

/-- Nanoseconds recorded for namespace `ns` by a trace. -/
def recordedNanos (ns : Nat) : List LogEvent → Int
  | [] => 0
  | .record n dur :: evs =>
      (if n = ns then dur.nanos else 0) + recordedNanos ns evs
  | .tick :: evs => recordedNanos ns evs

/-- Number of samples recorded for namespace `ns` by a trace. -/
def recordedCount (ns : Nat) : List LogEvent → Nat
  | [] => 0
  | .record n _ :: evs => (if n = ns then 1 else 0) + recordedCount ns evs
  | .tick :: evs => recordedCount ns evs

/-- Nanoseconds held for namespace `ns` by the posted messages plus the
in-memory accumulator. -/
def heldNanos (s : LogPipelineState) (ns : Nat) : Int :=
  (s.posted.map (fun m => (m ns).latency_time.nanos)).sum +
    (s.acc ns).latency_time.nanos

/-- Sample count held for namespace `ns` by the posted messages plus the
in-memory accumulator. -/
def heldCount (s : LogPipelineState) (ns : Nat) : Nat :=
  (s.posted.map (fun m => (m ns).io_num)).sum + (s.acc ns).io_num

/-! ## Helper lemmas -/

/-- The draining walk of `task_complete` returns `none` (release the group)
exactly when some sibling's context is draining. -/
theorem assign_ids_or_release_none_iff (ctxs : List NsWorkerCtx) (io_id : Nat)
    (l : List PerfTask) :
    assign_ids_or_release ctxs io_id l = none ↔
      ∃ t ∈ l, (getCtx ctxs t.ctx).is_draining := by
  induction l with
  | nil => simp [assign_ids_or_release]
  | cons t ts ih =>
    simp only [assign_ids_or_release]
    by_cases hd : (getCtx ctxs t.ctx).is_draining
    · simp [hd]
    · cases hrec : assign_ids_or_release ctxs io_id ts with
      | none =>
        rw [hrec] at ih
        simp [hd, hrec, ih.mp rfl]
      | some ts' =>
        rw [hrec] at ih
        have hnone : ¬∃ t' ∈ ts, (getCtx ctxs t'.ctx).is_draining := by
          intro hex
          exact Option.noConfusion (ih.mpr hex)
        simp [hd, hrec]
        intro t' ht'
        have := fun hdr => hnone ⟨t', ht', hdr⟩
        simpa using this

/-- When the draining walk succeeds it assigned the new id to every sibling
and no sibling's context was draining. -/
theorem assign_ids_or_release_some (ctxs : List NsWorkerCtx) (io_id : Nat)
    (l l' : List PerfTask)
    (h : assign_ids_or_release ctxs io_id l = some l') :
    l' = l.map (fun t => { t with io_id := io_id }) ∧
      ∀ t ∈ l, (getCtx ctxs t.ctx).is_draining = false := by
  induction l generalizing l' with
  | nil =>
    simp only [assign_ids_or_release, Option.some.injEq] at h
    subst h
    simp
  | cons t ts ih =>
    simp only [assign_ids_or_release] at h
    by_cases hd : (getCtx ctxs t.ctx).is_draining
    · simp [hd] at h
    · rw [if_neg hd] at h
      cases hrec : assign_ids_or_release ctxs io_id ts with
      | none => rw [hrec] at h; exact Option.noConfusion h
      | some ts' =>
        rw [hrec] at h
        have h' := Option.some.inj h
        subst h'
        obtain ⟨hmap, hndr⟩ := ih ts' hrec
        constructor
        · simp [hmap]
        · intro t' ht'
          rcases List.mem_cons.mp ht' with h1 | h1
          · subst h1; simpa using hd
          · exact hndr t' h1

/-! ## C1 -/

/-- Conclusion of claim C1, as a predicate on the inputs of
`task_complete`: the fan-in counter stays within `[0, g_rep_num]` (and
strictly below it after the call, re-establishing the precondition); a
completion that does not reach `g_rep_num` only increments the counter and
touches nothing else of the group; the `g_rep_num`-th completion resets the
counter to 0 and releases the logical I/O exactly when some sibling
context is draining, otherwise re-emits it (directly, or onto the pending
FIFO when the rate limiter is on). -/
def TaskCompleteFanIn (cfg : PerfConfig) (ctxs : List NsWorkerCtx)
    (task : PerfTask) (g : RepGroup) : Prop :=
  (task_complete cfg ctxs task g).group.rep_completed_num < cfg.g_rep_num ∧
  (g.rep_completed_num + 1 < cfg.g_rep_num →
    (task_complete cfg ctxs task g).action = .pending ∧
    (task_complete cfg ctxs task g).group.rep_completed_num =
      g.rep_completed_num + 1 ∧
    (task_complete cfg ctxs task g).group.rep_tasks = g.rep_tasks ∧
    (task_complete cfg ctxs task g).freed = []) ∧
  (g.rep_completed_num + 1 = cfg.g_rep_num →
    (task_complete cfg ctxs task g).group.rep_completed_num = 0 ∧
    ((task_complete cfg ctxs task g).action = .released ↔
      ∃ t ∈ g.rep_tasks,
        (getCtx (task_complete cfg ctxs task g).ctxs t.ctx).is_draining) ∧
    ((task_complete cfg ctxs task g).action = .released →
      (task_complete cfg ctxs task g).freed = rep_task_release g) ∧
    ((task_complete cfg ctxs task g).action ≠ .released →
      (task_complete cfg ctxs task g).action =
        (if cfg.io_num_per_second = 0 then .reissued else .pushed_to_fifo) ∧
      (task_complete cfg ctxs task g).freed = []))

/-- C1: for every sibling completion processed by `task_complete`, the
primary's `rep_completed_num` stays in `[0, N]` for `N = g_rep_num`, and
the logical I/O is recycled or reissued exactly when the counter reaches
`N`: on the `N`-th completion the counter is reset to 0 and the logical
I/O is either released (some sibling context draining) or re-emitted; on
any earlier completion nothing else happens. -/
theorem task_complete_fan_in (cfg : PerfConfig) (ctxs : List NsWorkerCtx)
    (task : PerfTask) (g : RepGroup)
    (h : g.rep_completed_num < cfg.g_rep_num) :
    TaskCompleteFanIn cfg ctxs task g := by
  have hsplit : g.rep_completed_num + 1 < cfg.g_rep_num ∨
      g.rep_completed_num + 1 = cfg.g_rep_num := by omega
  rcases hsplit with hlt | heq
  · constructor
    · simp [task_complete, if_pos hlt]; omega
    refine ⟨fun _ => ?_, fun habs => absurd habs (by omega)⟩
    simp [task_complete, if_pos hlt]
  · have hnlt : ¬(g.rep_completed_num + 1 < cfg.g_rep_num) := by omega
    refine ⟨?_, fun habs => absurd habs (by omega), fun _ => ?_⟩
    · simp only [task_complete, if_neg hnlt]
      cases hasg : assign_ids_or_release
          (setCtx ctxs task.ctx (task_complete_ctx_part (getCtx ctxs task.ctx)))
          (let io_id :=
            ((RepGroup.mk g.rep_tasks g.main_idx 0).main_task.io_id +
              cfg.g_queue_depth) % U32;
            if io_id = 0 then 1 else io_id)
          g.rep_tasks with
      | none => simp [hasg]; omega
      | some ts => simp [hasg]; split <;> simp <;> omega
    · simp only [task_complete, if_neg hnlt]
      cases hasg : assign_ids_or_release
          (setCtx ctxs task.ctx (task_complete_ctx_part (getCtx ctxs task.ctx)))
          (let io_id :=
            ((RepGroup.mk g.rep_tasks g.main_idx 0).main_task.io_id +
              cfg.g_queue_depth) % U32;
            if io_id = 0 then 1 else io_id)
          g.rep_tasks with
      | none =>
        have hdr := (assign_ids_or_release_none_iff _ _ _).mp hasg
        simp [hasg]
        exact ⟨hdr, rfl⟩
      | some ts =>
        have hndr := (assign_ids_or_release_some _ _ _ _ hasg).2
        simp only [hasg]
        split <;> simp_all

/-- Concrete configuration for the C1 witness: three replicas, queue depth
4, no rate limiter. -/
def c1_cfg : PerfConfig :=
  { g_rep_num := 3, g_queue_depth := 4, g_continue_on_error := false,
    g_number_ios := 0, io_num_per_second := 0, batch_size := 1,
    g_is_random := false, g_rw_percentage := 0 }

/-- Three idle worker contexts for the C1 witness. -/
def c1_ctxs : List NsWorkerCtx := [default, default, default]

/-- A three-sibling logical I/O for the C1 witness. -/
def c1_g : RepGroup :=
  copy_task (copy_task (allocate_main_task 1 0 0 100 11 50) 1 1 12) 2 2 13

/-- Witness for C1: the theorem applied to a concrete three-sibling group
with a fresh counter. -/
theorem task_complete_fan_in_witness :
    c1_g.rep_completed_num < c1_cfg.g_rep_num ∧
      TaskCompleteFanIn c1_cfg c1_ctxs c1_g.main_task c1_g :=
  ⟨by decide, task_complete_fan_in c1_cfg c1_ctxs c1_g.main_task c1_g (by decide)⟩

/-! ## C10 -/

/-- All siblings of a logical I/O carry the primary's `io_id`. -/
def ids_agree (g : RepGroup) : Prop :=
  ∀ t ∈ g.rep_tasks, t.io_id = g.main_task.io_id

/-- The id `task_complete` computes for the next incarnation of a logical
I/O: `main_task->io_id + g_queue_depth` in `uint32` arithmetic, replaced by
1 when the sum wraps to 0. -/
def rep_next_io_id (cfg : PerfConfig) (g : RepGroup) : Nat :=
  let io_id := (g.main_task.io_id + cfg.g_queue_depth) % U32
  if io_id = 0 then 1 else io_id

instance (g : RepGroup) : Decidable (ids_agree g) := by
  unfold ids_agree
  infer_instance

/-- Auxiliary characterization of `task_complete` on the `g_rep_num`-th
completion, with the fresh id written through `rep_next_io_id`. -/
theorem task_complete_at_N (cfg : PerfConfig) (ctxs : List NsWorkerCtx)
    (task : PerfTask) (g : RepGroup)
    (hnlt : ¬(g.rep_completed_num + 1 < cfg.g_rep_num)) :
    task_complete cfg ctxs task g =
      (match assign_ids_or_release
          (setCtx ctxs task.ctx (task_complete_ctx_part (getCtx ctxs task.ctx)))
          (rep_next_io_id cfg g) g.rep_tasks with
       | none =>
          { ctxs := setCtx ctxs task.ctx
              (task_complete_ctx_part (getCtx ctxs task.ctx)),
            group := { rep_tasks := g.rep_tasks, main_idx := g.main_idx,
                       rep_completed_num := 0 },
            action := .released, freed := rep_task_release g }
       | some ts =>
          if cfg.io_num_per_second = 0 then
            { ctxs := setCtx ctxs task.ctx
                (task_complete_ctx_part (getCtx ctxs task.ctx)),
              group := { rep_tasks := ts, main_idx := g.main_idx,
                         rep_completed_num := 0 },
              action := .reissued, freed := [] }
          else
            { ctxs := setCtx ctxs task.ctx
                (task_complete_ctx_part (getCtx ctxs task.ctx)),
              group := { rep_tasks := ts, main_idx := g.main_idx,
                         rep_completed_num := 0 },
              action := .pushed_to_fifo, freed := [] }) := by
  simp only [task_complete, if_neg hnlt]
  rfl

/-- Auxiliary: `getD` through `List.map` below the length. -/
theorem getD_map_lt {α β : Type} [Inhabited α] [Inhabited β] (f : α → β)
    (l : List α) (i : Nat) (h : i < l.length) :
    (l.map f).getD i default = f (l.getD i default) := by
  induction l generalizing i with
  | nil => simp at h
  | cons x xs ih =>
    cases i with
    | zero => simp
    | succ j =>
      simp only [List.map_cons, List.getD_cons_succ]
      exact ih j (by simpa using h)

/-- Auxiliary: `getD` through an append below the length of the left part. -/
theorem getD_append_lt {α : Type} [Inhabited α] (l l' : List α) (i : Nat)
    (h : i < l.length) :
    (l ++ l').getD i default = l.getD i default := by
  induction l generalizing i with
  | nil => simp at h
  | cons x xs ih =>
    cases i with
    | zero => simp
    | succ j =>
      simp only [List.cons_append, List.getD_cons_succ]
      exact ih j (by simpa using h)

/-- Conclusion of claim C10: `allocate_main_task` starts a group whose only
sibling carries the given id; `copy_task` initializes the copy's `io_id`
from the primary's and preserves agreement; a `task_complete` that leaves
the counter short of `g_rep_num` leaves the sibling list untouched; and a
`task_complete` that re-emits the logical I/O (directly or onto the FIFO)
has assigned the single fresh id `rep_next_io_id` — never 0 — to every
sibling, the primary included. -/
def RepIdsConsistent (cfg : PerfConfig) (ctxs : List NsWorkerCtx)
    (task : PerfTask) (g : RepGroup) : Prop :=
  (∀ io_id ns_id ctx b p m,
    ids_agree (allocate_main_task io_id ns_id ctx b p m) ∧
      (allocate_main_task io_id ns_id ctx b p m).main_task.io_id = io_id) ∧
  (∀ ctx ns_id iv,
    ids_agree (copy_task g ctx ns_id iv) ∧
      (copy_task g ctx ns_id iv).main_task.io_id = g.main_task.io_id) ∧
  ((task_complete cfg ctxs task g).action = .pending →
    (task_complete cfg ctxs task g).group.rep_tasks = g.rep_tasks) ∧
  ((task_complete cfg ctxs task g).action = .reissued ∨
      (task_complete cfg ctxs task g).action = .pushed_to_fifo →
    ids_agree (task_complete cfg ctxs task g).group ∧
      (task_complete cfg ctxs task g).group.main_task.io_id =
        rep_next_io_id cfg g ∧
      (task_complete cfg ctxs task g).group.main_task.io_id ≠ 0)

/-- C10: between coordinator operations all siblings of one logical I/O
carry the same `io_id` as the primary — `copy_task` initializes each
copy's id from the primary's, and on the N-th completion the single new id
(`primary.io_id + queue_depth` in `uint32`, replaced by 1 when the sum
wraps to 0) is assigned to every sibling before the logical I/O is
re-emitted, so the id is never 0 for a live I/O and siblings never
disagree. -/
theorem rep_ids_consistent (cfg : PerfConfig) (ctxs : List NsWorkerCtx)
    (task : PerfTask) (g : RepGroup)
    (hidx : g.main_idx < g.rep_tasks.length) (hagree : ids_agree g) :
    RepIdsConsistent cfg ctxs task g := by
  refine ⟨?_, ?_, ?_, ?_⟩
  · intro io_id ns_id ctx b p m
    constructor
    · intro t ht
      simp [allocate_main_task, RepGroup.main_task] at ht ⊢
      simp [ht]
    · rfl
  · intro ctx ns_id iv
    have hmain : (copy_task g ctx ns_id iv).main_task = g.main_task := by
      simp only [copy_task, RepGroup.main_task]
      exact getD_append_lt _ _ _ hidx
    refine ⟨?_, by rw [hmain]⟩
    intro t ht
    rw [hmain]
    simp only [copy_task] at ht
    rcases List.mem_append.mp ht with h1 | h1
    · exact hagree t h1
    · simp at h1
      simp [h1]
  · intro hact
    by_cases hlt : g.rep_completed_num + 1 < cfg.g_rep_num
    · simp [task_complete, if_pos hlt]
    · rw [task_complete_at_N cfg ctxs task g hlt] at hact
      cases hasg : assign_ids_or_release
          (setCtx ctxs task.ctx (task_complete_ctx_part (getCtx ctxs task.ctx)))
          (rep_next_io_id cfg g) g.rep_tasks with
      | none => rw [hasg] at hact; simp at hact
      | some ts =>
        rw [hasg] at hact
        by_cases hio : cfg.io_num_per_second = 0 <;> simp [hio] at hact
  · intro hact
    by_cases hlt : g.rep_completed_num + 1 < cfg.g_rep_num
    · simp [task_complete, if_pos hlt] at hact
    · rw [task_complete_at_N cfg ctxs task g hlt] at hact ⊢
      cases hasg : assign_ids_or_release
          (setCtx ctxs task.ctx (task_complete_ctx_part (getCtx ctxs task.ctx)))
          (rep_next_io_id cfg g) g.rep_tasks with
      | none => rw [hasg] at hact; simp at hact
      | some ts =>
        have hmap := (assign_ids_or_release_some _ _ _ _ hasg).1
        dsimp only
        have hm := getD_map_lt
          (fun t => ({ t with io_id := rep_next_io_id cfg g } : PerfTask))
          g.rep_tasks g.main_idx hidx
        have hgoal :
            ids_agree { rep_tasks := ts, main_idx := g.main_idx,
                        rep_completed_num := 0 } ∧
            (RepGroup.mk ts g.main_idx 0).main_task.io_id =
              rep_next_io_id cfg g := by
          subst hmap
          constructor
          · intro t ht
            simp only [RepGroup.main_task, hm]
            simp at ht
            obtain ⟨t0, _, rfl⟩ := ht
            rfl
          · simp only [RepGroup.main_task, hm]
        have hne : rep_next_io_id cfg g ≠ 0 := by
          simp only [rep_next_io_id]
          split <;> simp_all
        by_cases hio : cfg.io_num_per_second = 0 <;>
          simp only [hio, if_true, if_false, reduceIte] <;>
          exact ⟨hgoal.1, hgoal.2, by rw [hgoal.2]; exact hne⟩

/-- A three-sibling logical I/O for the C10 witness, one completion short of
the fan-in bound of `c10_cfg`. -/
def c10_g : RepGroup :=
  { copy_task (copy_task (allocate_main_task 7 0 0 100 11 50) 1 1 12) 2 2 13
      with rep_completed_num := 2 }

/-- Concrete configuration for the C10 witness. -/
def c10_cfg : PerfConfig :=
  { g_rep_num := 3, g_queue_depth := 4, g_continue_on_error := false,
    g_number_ios := 0, io_num_per_second := 0, batch_size := 1,
    g_is_random := false, g_rw_percentage := 0 }

/-- Witness for C10 at a concrete three-sibling group. -/
theorem rep_ids_consistent_witness :
    (c10_g.main_idx < c10_g.rep_tasks.length ∧ ids_agree c10_g) ∧
      RepIdsConsistent c10_cfg [default, default, default] c10_g.main_task
        c10_g :=
  ⟨⟨by decide, by decide⟩,
    rep_ids_consistent c10_cfg [default, default, default] c10_g.main_task
      c10_g (by decide) (by decide)⟩

/-! ## C2 -/

/-- The accounting identity claimed for a namespace-worker context:
`current_queue_depth = io_submitted - io_completed` and
`io_completed ≤ io_submitted`. -/
def acct_inv (c : NsWorkerCtx) : Prop :=
  c.current_queue_depth = c.stats.io_submitted - c.stats.io_completed ∧
  c.stats.io_completed ≤ c.stats.io_submitted

instance (c : NsWorkerCtx) : Decidable (acct_inv c) := by
  unfold acct_inv
  infer_instance

/-- Ghost view, for the in-flight bound of C2, of the live logical I/Os of
one worker: one entry per live replica group, holding the context indexes
of that group's currently in-flight siblings.  A sibling enters this set
exactly when its `submit_io` succeeds (`current_queue_depth++`,
perf_rep_batch.c:1755 and 1683) and leaves it on entry to `task_complete`
(`current_queue_depth--`, perf_rep_batch.c:1802), so a context's
`current_queue_depth` counts its entries here.  The emission loop
`submit_io_rep` (perf_rep_batch.c:2001-2015) builds each group with exactly
one sibling per worker context (one `TAILQ_FOREACH` visit per `ns_ctx`),
so a group never holds two in-flight siblings on one context, and a
sibling re-enters only after leaving (reissue happens only after the
group's N-th completion, perf_rep_batch.c:1847-1870). -/
abbrev FlightGroups := List (List Nat)

/-- Number of in-flight siblings hosted by context `i`: what that context's
`current_queue_depth` counts during the run. -/
def hostedInflight (gs : FlightGroups) (i : Nat) : Nat :=
  (gs.map (fun g => g.count i)).sum

/-- The engine event that increments a `current_queue_depth`: a successful
submission of group `gi`'s sibling on context `j`
(perf_rep_batch.c:1754-1756). -/
def flightSubmit (gs : FlightGroups) (gi j : Nat) : FlightGroups :=
  gs.set gi (j :: gs.getD gi [])

/-- The engine event that decrements a `current_queue_depth`: completion of
group `gi`'s sibling on context `j` (perf_rep_batch.c:1802). -/
def flightComplete (gs : FlightGroups) (gi j : Nat) : FlightGroups :=
  gs.set gi ((gs.getD gi []).erase j)

/-- Release of group `gi` on its N-th completion with a draining sibling
context (perf_rep_batch.c:1863-1865): the logical I/O leaves the live set.
No operation of the run adds a live group beyond the `g_queue_depth` many
built once by `submit_io_rep` (work_fn:2157). -/
def flightRelease (gs : FlightGroups) (gi : Nat) : FlightGroups :=
  gs.eraseIdx gi

/-- Every live group hosts at most one in-flight sibling per context. -/
def flightsNodup (gs : FlightGroups) : Prop :=
  ∀ g ∈ gs, g.Nodup

/-- Auxiliary: the per-context census across a table with one group
replaced. -/
theorem sum_map_count_set (i : Nat) :
    ∀ (gs : FlightGroups) (gi : Nat) (x : List Nat), gi < gs.length →
      ((gs.set gi x).map (fun g => g.count i)).sum +
          (gs.getD gi []).count i =
        (gs.map (fun g => g.count i)).sum + x.count i := by
  intro gs
  induction gs with
  | nil => intro gi x h; simp at h
  | cons g gs ih =>
    intro gi x h
    cases gi with
    | zero =>
      simp only [List.set_cons_zero, List.map_cons, List.sum_cons,
        List.getD_cons_zero]
      omega
    | succ k =>
      simp only [List.set_cons_succ, List.map_cons, List.sum_cons,
        List.getD_cons_succ]
      have := ih k x (by simpa using h)
      omega

/-- Auxiliary: a successful submission raises its own context's in-flight
census by one and no other context's. -/
theorem hostedInflight_flightSubmit (gs : FlightGroups) (gi j i : Nat)
    (h : gi < gs.length) :
    hostedInflight (flightSubmit gs gi j) i =
      hostedInflight gs i + (if j = i then 1 else 0) := by
  have hs := sum_map_count_set i gs gi (j :: gs.getD gi []) h
  have hc : (j :: gs.getD gi []).count i =
      (gs.getD gi []).count i + (if j = i then 1 else 0) := by
    by_cases hj : j = i <;> simp [List.count_cons, hj]
  simp only [hostedInflight, flightSubmit] at *
  omega

/-- Auxiliary: a completion lowers its own context's in-flight census by one
and no other context's. -/
theorem hostedInflight_flightComplete (gs : FlightGroups) (gi j i : Nat)
    (hm : j ∈ gs.getD gi []) :
    hostedInflight (flightComplete gs gi j) i + (if j = i then 1 else 0) =
      hostedInflight gs i := by
  have hgi : gi < gs.length := by
    by_contra hge
    rw [List.getD_eq_default _ _ (by omega)] at hm
    simp at hm
  have hs := sum_map_count_set i gs gi ((gs.getD gi []).erase j) hgi
  have hperm : List.Perm (gs.getD gi []) (j :: (gs.getD gi []).erase j) :=
    List.perm_cons_erase hm
  have hc : ((gs.getD gi []).erase j).count i + (if j = i then 1 else 0) =
      (gs.getD gi []).count i := by
    rw [hperm.count_eq]
    by_cases hj : j = i <;> simp [List.count_cons, hj]
  simp only [hostedInflight, flightComplete]
  by_cases hj : j = i
  · simp only [if_pos hj] at hc ⊢
    omega
  · simp only [if_neg hj] at hc ⊢
    omega

/-- Auxiliary: with at most one in-flight sibling per context per group, a
context hosts at most as many in-flight siblings as there are live
groups. -/
theorem hostedInflight_le_length (i : Nat) :
    ∀ gs : FlightGroups, flightsNodup gs → hostedInflight gs i ≤ gs.length := by
  intro gs
  induction gs with
  | nil => intro _; simp [hostedInflight]
  | cons g gs ih =>
    intro hnd
    have h1 : g.count i ≤ 1 :=
      List.nodup_iff_count_le_one.mp (hnd g (by simp)) i
    have h2 := ih (fun g' hg' => hnd g' (List.mem_cons_of_mem _ hg'))
    simp only [hostedInflight, List.map_cons, List.sum_cons,
      List.length_cons] at *
    omega

/-- Auxiliary: submitting a not-in-flight sibling keeps every group free of
per-context duplicates and keeps the number of live groups. -/
theorem flightsNodup_flightSubmit (gs : FlightGroups) (gi j : Nat)
    (hnd : flightsNodup gs) (hj : j ∉ gs.getD gi []) :
    flightsNodup (flightSubmit gs gi j) ∧
      (flightSubmit gs gi j).length = gs.length := by
  constructor
  · intro g' hg'
    rcases List.mem_or_eq_of_mem_set hg' with hmem | heq
    · exact hnd g' hmem
    · subst heq
      refine List.nodup_cons.mpr ⟨hj, ?_⟩
      by_cases hgi : gi < gs.length
      · have hmem2 : gs.getD gi [] ∈ gs := by
          rw [List.getD_eq_getElem _ _ hgi]
          exact List.getElem_mem hgi
        exact hnd _ hmem2
      · rw [List.getD_eq_default _ _ (by omega)]
        exact List.nodup_nil
  · simp [flightSubmit]

/-- Auxiliary: a completion keeps every group free of per-context duplicates
and keeps the number of live groups. -/
theorem flightsNodup_flightComplete (gs : FlightGroups) (gi j : Nat)
    (hnd : flightsNodup gs) :
    flightsNodup (flightComplete gs gi j) ∧
      (flightComplete gs gi j).length = gs.length := by
  constructor
  · intro g' hg'
    rcases List.mem_or_eq_of_mem_set hg' with hmem | heq
    · exact hnd g' hmem
    · subst heq
      by_cases hgi : gi < gs.length
      · have hmem2 : gs.getD gi [] ∈ gs := by
          rw [List.getD_eq_getElem _ _ hgi]
          exact List.getElem_mem hgi
        exact (hnd _ hmem2).erase j
      · rw [List.getD_eq_default _ _ (by omega)]
        simp
  · simp [flightComplete]

/-- Auxiliary: a release keeps every group free of per-context duplicates
and does not grow the live set. -/
theorem flightsNodup_flightRelease (gs : FlightGroups) (gi : Nat)
    (hnd : flightsNodup gs) :
    flightsNodup (flightRelease gs gi) ∧
      (flightRelease gs gi).length ≤ gs.length :=
  ⟨fun g' hg' => hnd g' (List.mem_of_mem_eraseIdx hg'),
    List.length_eraseIdx_le ..⟩

/-- Conclusion of the amended claim C2.  During the run: one submission
attempt (any return code, either error policy) and one completion of an
in-flight sibling each preserve `current_queue_depth = io_submitted -
io_completed` and `io_completed ≤ io_submitted`; the only two events that
move a `current_queue_depth` move the in-flight census `hostedInflight` of
exactly that one context by exactly the same amount, so the depth of a
context equals the number of in-flight siblings it hosts; the engine
events preserve at-most-one-in-flight-sibling-per-context-per-group and
never grow the live set; a context's census — hence its depth — is
therefore at most the number of live groups, hence at most
`g_queue_depth`, hence at most `g_queue_depth * nr_io_queues_per_ns` for
any `nr_io_queues_per_ns ≥ 1`; and, grounding the per-group hypothesis in
the task-pool model, a `copy_task` extends the group's context list by
exactly its own context, so the emission loop's one sibling per distinct
worker context yields groups with pairwise distinct contexts. -/
def AcctPreserved (cfg : PerfConfig) (c : NsWorkerCtx) (task : PerfTask)
    (stack : Nat) (rc : Int) : Prop :=
  acct_inv (submit_single_io cfg c task stack rc).ctx ∧
  (0 < c.current_queue_depth → acct_inv (task_complete_ctx_part c)) ∧
  (∀ (gs : FlightGroups) (gi j i : Nat), gi < gs.length →
    hostedInflight (flightSubmit gs gi j) i =
      hostedInflight gs i + (if j = i then 1 else 0)) ∧
  (∀ (gs : FlightGroups) (gi j i : Nat), j ∈ gs.getD gi [] →
    hostedInflight (flightComplete gs gi j) i + (if j = i then 1 else 0) =
      hostedInflight gs i) ∧
  (∀ (gs : FlightGroups) (gi j : Nat), flightsNodup gs →
    j ∉ gs.getD gi [] →
    flightsNodup (flightSubmit gs gi j) ∧
      (flightSubmit gs gi j).length = gs.length) ∧
  (∀ (gs : FlightGroups) (gi j : Nat), flightsNodup gs →
    flightsNodup (flightComplete gs gi j) ∧
      (flightComplete gs gi j).length = gs.length) ∧
  (∀ (gs : FlightGroups) (gi : Nat), flightsNodup gs →
    flightsNodup (flightRelease gs gi) ∧
      (flightRelease gs gi).length ≤ gs.length) ∧
  (∀ (gs : FlightGroups) (i nr : Nat), flightsNodup gs →
    gs.length ≤ cfg.g_queue_depth → 1 ≤ nr →
    hostedInflight gs i ≤ cfg.g_queue_depth * nr) ∧
  (∀ (g : RepGroup) (ctx2 ns2 iv2 : Nat),
    (copy_task g ctx2 ns2 iv2).rep_tasks.map PerfTask.ctx =
      g.rep_tasks.map PerfTask.ctx ++ [ctx2])

/-- C2 (amended): during the run the identity
`current_queue_depth = io_submitted - io_completed`, the bound
`io_completed ≤ io_submitted`, and the bound
`current_queue_depth ≤ g_queue_depth * nr_io_queues_per_ns` all hold: the
identity is preserved by every submission attempt and by every completion
of an in-flight sibling (`uint64` wrap unreachable below `2^64`
submissions), and the depth bound follows because the depth counts the
context's in-flight siblings — each of the at most `g_queue_depth` live
logical I/Os hosts at most one sibling per context, and
`nr_io_queues_per_ns ≥ 1`.  They are *not* preserved by
`cleanup_ns_worker_ctx`, which feeds never-submitted queued tasks through
`task_complete` (see the counterexample). -/
theorem acct_identity_preserved (cfg : PerfConfig) (c : NsWorkerCtx)
    (task : PerfTask) (stack : Nat) (rc : Int) (h : acct_inv c)
    (hb : c.stats.io_submitted + 1 < U64) :
    AcctPreserved cfg c task stack rc := by
  obtain ⟨h1, h2⟩ := h
  have hU : U64 = 18446744073709551616 := by norm_num [U64]
  rw [hU] at hb
  refine ⟨?_, ?_, ?_, ?_, ?_, ?_, ?_, ?_, ?_⟩
  · simp only [submit_single_io, submit_io_rc_handling, acct_inv]
    split
    · split
      · split <;> exact ⟨h1, h2⟩
      · split <;> exact ⟨h1, h2⟩
    · split <;>
        · simp only [hU]
          constructor <;> omega
  · intro hpos
    simp only [task_complete_ctx_part, acct_inv, hU]
    constructor <;> omega
  · exact fun gs gi j i hlt => hostedInflight_flightSubmit gs gi j i hlt
  · exact fun gs gi j i hm => hostedInflight_flightComplete gs gi j i hm
  · exact fun gs gi j hnd hj => flightsNodup_flightSubmit gs gi j hnd hj
  · exact fun gs gi j hnd => flightsNodup_flightComplete gs gi j hnd
  · exact fun gs gi hnd => flightsNodup_flightRelease gs gi hnd
  · intro gs i nr hnd hlen hnr
    have hle := hostedInflight_le_length i gs hnd
    have hmul : cfg.g_queue_depth * 1 ≤ cfg.g_queue_depth * nr :=
      Nat.mul_le_mul_left _ hnr
    omega
  · intro g ctx2 ns2 iv2
    simp [copy_task]

/-- Concrete configuration for the C2 theorems: `continue_on_error` set, no
rate limiter, no submission budget. -/
def c2_cfg : PerfConfig :=
  { g_rep_num := 3, g_queue_depth := 1, g_continue_on_error := true,
    g_number_ios := 0, io_num_per_second := 0, batch_size := 1,
    g_is_random := false, g_rw_percentage := 0 }

/-- A concrete sibling for the C2 theorems. -/
def c2_task : PerfTask :=
  { io_id := 1, ns_id := 0, ctx := 0, iov_base := 100, iovs_ptr := 11,
    md_base := 50, offset_in_ios := 0, is_read := false }

/-- C2 trace, step 1: a successful submission on a fresh context. -/
def c2_c1 : NsWorkerCtx := (submit_single_io c2_cfg default c2_task 0 0).ctx

/-- C2 trace, step 2: that sibling completes. -/
def c2_c2 : NsWorkerCtx := task_complete_ctx_part c2_c1

/-- C2 trace, step 3: a resubmission fails with `-ENOMEM`, so the sibling is
queued (not counted as submitted). -/
def c2_c3 : NsWorkerCtx := (submit_single_io c2_cfg c2_c2 c2_task 0 ENOMEM).ctx

/-- C2 trace, step 4: `cleanup_ns_worker_ctx` drains the queued task through
`task_complete`. -/
def c2_c4 : NsWorkerCtx := cleanup_ns_worker_ctx c2_c3

/-- Counterexample to C2 as stated: before cleanup the identity holds
(one submitted, one completed, one task queued, depth 0), but cleanup's
draining of the queued — never-submitted — task leaves
`io_completed = 2 > 1 = io_submitted` and wraps `current_queue_depth` to
`2^64 - 1`, so after the cleanup engine operation both the identity and the
bound are violated. -/
theorem acct_identity_cleanup_cex :
    acct_inv c2_c3 ∧
      c2_c4.stats.io_submitted = 1 ∧
      c2_c4.stats.io_completed = 2 ∧
      ¬ (c2_c4.stats.io_completed ≤ c2_c4.stats.io_submitted) ∧
      c2_c4.current_queue_depth = U64 - 1 ∧
      c2_c4.current_queue_depth ≠
        c2_c4.stats.io_submitted - c2_c4.stats.io_completed := by
  decide

/-- Witness for the amended C2 at the post-completion context of the
concrete trace. -/
theorem acct_identity_preserved_witness :
    (acct_inv c2_c2 ∧ c2_c2.stats.io_submitted + 1 < U64) ∧
      AcctPreserved c2_cfg c2_c2 c2_task 0 ENOMEM :=
  ⟨⟨by decide, by decide⟩,
    acct_identity_preserved c2_cfg c2_c2 c2_task 0 ENOMEM (by decide)
      (by decide)⟩


/-! ## C6 -/

/-- Conclusion of the amended claim C6: on a failed submission
(`rc ≠ 0`), with `continue_on_error` set the sibling is appended to its own
context's `queued_tasks` and nothing is freed and no counter or status
changes; with it clear the sibling's buffers are freed, the context status
is set to 1, and the sibling is not queued. -/
def SubmitErrorHandling (cfg : PerfConfig) (c : NsWorkerCtx)
    (task : PerfTask) (rc : Int) : Prop :=
  (cfg.g_continue_on_error = true →
    (submit_io_rc_handling cfg c task rc).1.queued_tasks =
        c.queued_tasks ++ [task] ∧
      (submit_io_rc_handling cfg c task rc).2 = [] ∧
      (submit_io_rc_handling cfg c task rc).1.status = c.status ∧
      (submit_io_rc_handling cfg c task rc).1.stats = c.stats ∧
      (submit_io_rc_handling cfg c task rc).1.current_queue_depth =
        c.current_queue_depth) ∧
  (cfg.g_continue_on_error = false →
    (submit_io_rc_handling cfg c task rc).2 =
        [task.iov_base, task.iovs_ptr, task.md_base] ∧
      (submit_io_rc_handling cfg c task rc).1.status = 1 ∧
      (submit_io_rc_handling cfg c task rc).1.queued_tasks = c.queued_tasks)

/-- C6 (amended): the error branch of the submission paths keys on
`continue_on_error` alone, not on the return code being `-ENOMEM`: *any*
non-zero return with `continue_on_error` set queues the sibling on its own
context (nothing freed, status untouched); any non-zero return with it
clear frees the sibling's buffers, marks the context failed and does not
queue. -/
theorem submit_error_handling (cfg : PerfConfig) (c : NsWorkerCtx)
    (task : PerfTask) (rc : Int) (hrc : rc ≠ 0) :
    SubmitErrorHandling cfg c task rc := by
  constructor <;> intro hcont <;>
    simp only [submit_io_rc_handling, if_pos hrc, hcont, if_true, if_false,
      Bool.false_eq_true] <;>
    split <;> simp

/-- Concrete configuration for the C6 theorems, with `continue_on_error`
set. -/
def c6_cfg : PerfConfig :=
  { g_rep_num := 3, g_queue_depth := 1, g_continue_on_error := true,
    g_number_ios := 0, io_num_per_second := 0, batch_size := 1,
    g_is_random := false, g_rw_percentage := 0 }

/-- A concrete sibling for the C6 theorems. -/
def c6_task : PerfTask :=
  { io_id := 1, ns_id := 0, ctx := 0, iov_base := 100, iovs_ptr := 11,
    md_base := 50, offset_in_ios := 0, is_read := false }

/-- Counterexample to C6 as stated: a return code of `-22` (not `-ENOMEM`)
with `continue_on_error` set is *queued* — nothing is freed and the
context status stays 0 — where the claim requires the payload to be freed,
the status marked failed, and the sibling not queued. -/
theorem submit_error_enomem_only_cex :
    ENOMEM ≠ (-22 : Int) ∧
      (submit_io_rc_handling c6_cfg default c6_task (-22)).2 = [] ∧
      (submit_io_rc_handling c6_cfg default c6_task (-22)).1.status = 0 ∧
      (submit_io_rc_handling c6_cfg default c6_task (-22)).1.queued_tasks =
        [c6_task] := by
  decide

/-- Witness for the amended C6 at the concrete failing return code `-22`. -/
theorem submit_error_handling_witness :
    ((-22 : Int) ≠ 0) ∧ SubmitErrorHandling c6_cfg default c6_task (-22) :=
  ⟨by decide, submit_error_handling c6_cfg default c6_task (-22) (by decide)⟩

/-! ## C3 -/

/-- Concrete configuration for the C3 theorem: sequential workload
(`g_is_random` off, write-only), `continue_on_error` set. -/
def c3_cfg : PerfConfig :=
  { g_rep_num := 2, g_queue_depth := 1, g_continue_on_error := true,
    g_number_ios := 0, io_num_per_second := 0, batch_size := 1,
    g_is_random := false, g_rw_percentage := 0 }

/-- A sequential namespace entry for the C3 theorem. -/
def c3_entry : NsEntry :=
  { has_zipf := false, size_in_ios := 10, io_size_blocks := 8 }

/-- Oracle for the C3 theorem: every sibling submission succeeds. -/
def c3_ora : SubmitOracle :=
  { zipf_val := 0, rand_off := 0, rand_rw := 0, rc := fun _ => 0 }

/-- Two contexts for the C3 theorem; the primary context's sequential cursor
stands at 5. -/
def c3_ctxs : List NsWorkerCtx :=
  [{ (default : NsWorkerCtx) with offset_in_ios := 5 }, default]

/-- A two-sibling logical I/O for the C3 theorem (primary on context 0, copy
on context 1). -/
def c3_g : RepGroup := copy_task (allocate_main_task 1 0 0 100 11 50) 1 1 12

/-- A queued sibling for the C3 theorem, carrying the shared offset 5 that
its last emission stored into `task->offset_in_ios`. -/
def c3_queued : PerfTask :=
  { io_id := 1, ns_id := 0, ctx := 0, iov_base := 100, iovs_ptr := 11,
    md_base := 50, offset_in_ios := 5, is_read := false }

/-- C3, evaluated at the failing input: the emission walk of
`submit_single_io_rep` does compute the shared offset once (the sequential
cursor advances 5 → 6) and passes 5 to both siblings' `submit_io`; but the
requeued-task resubmission path `submit_single_io` passes the
never-assigned stack local — here 7 — to `submit_io` instead of the
sibling's stored shared offset 5, so a resubmission does not carry the
logical I/O's shared offset. -/
theorem submit_offset_resubmission_bug :
    ((submit_single_io_rep c3_cfg c3_entry 10 c3_ora c3_ctxs c3_g).1.calls.map
        (fun cl => cl.offset_arg) = [5, 5]) ∧
      ((submit_single_io_rep c3_cfg c3_entry 10 c3_ora c3_ctxs
          c3_g).2.rep_tasks.map (fun t => t.offset_in_ios) = [5, 5]) ∧
      (getCtx (submit_single_io_rep c3_cfg c3_entry 10 c3_ora c3_ctxs
          c3_g).1.ctxs 0).offset_in_ios = 6 ∧
      c3_queued.offset_in_ios = 5 ∧
      (submit_single_io c3_cfg (getCtx c3_ctxs 0) c3_queued 7 0).call.offset_arg
        = 7 ∧
      (submit_single_io c3_cfg (getCtx c3_ctxs 0) c3_queued 7
          0).call.offset_arg ≠ c3_queued.offset_in_ios := by
  decide

/-! ## C4 -/

/-- A pending logical I/O for the C4 theorem. -/
def c4_g : RepGroup := allocate_main_task 1 0 0 100 11 50

/-- C4, evaluated at the failing input: with `batch_size = 2` and a single
pending primary, the gate's drain loop pops and submits the one entry, and
on the next iteration — `submit_batch = 1 < 2` with the FIFO now empty —
it dereferences the null head (`temp_perf_task_link->task`); with
`batch_size = 1` the same FIFO is drained without reaching the null
dereference, and an empty FIFO with any budget left crashes at once. -/
theorem gate_drain_null_deref :
    gate_drain 0 2 [c4_g] [] = .null_deref [c4_g] ∧
      gate_drain 0 1 [c4_g] [] = .ok [] 1 [c4_g] ∧
      gate_drain 0 1 [] [] = .null_deref [] := by
  decide

/-! ## C5 -/

/-- Concrete configuration for the C5 theorem: `continue_on_error` clear, so
a failed submission takes the free-and-fail branch. -/
def c5_cfg : PerfConfig :=
  { g_rep_num := 3, g_queue_depth := 1, g_continue_on_error := false,
    g_number_ios := 0, io_num_per_second := 0, batch_size := 1,
    g_is_random := false, g_rw_percentage := 0 }

/-- A sequential namespace entry for the C5 theorem. -/
def c5_entry : NsEntry :=
  { has_zipf := false, size_in_ios := 10, io_size_blocks := 8 }

/-- Oracle for the C5 theorem: the primary's submission succeeds, both copy
submissions fail with a fatal `-22`. -/
def c5_ora : SubmitOracle :=
  { zipf_val := 0, rand_off := 0, rand_rw := 0,
    rc := fun i => if i = 0 then 0 else -22 }

/-- Three idle contexts for the C5 theorem. -/
def c5_ctxs : List NsWorkerCtx := [default, default, default]

/-- A three-sibling logical I/O for the C5 theorem: payload base 100 and
metadata base 50 are owned by the primary and aliased by both copies. -/
def c5_g : RepGroup :=
  copy_task (copy_task (allocate_main_task 1 0 0 100 11 50) 1 1 12) 2 2 13

/-- C5, evaluated at the failing input: when the two copy siblings'
submissions fail fatally, the per-sibling failure path of
`submit_single_io_rep` frees `iovs[0].iov_base` and `md_iov.iov_base` of
*each* failing copy — but those alias the primary's payload, so the shared
DMA base 100 and metadata base 50 are each freed twice in one walk, while
the intended single release path `rep_task_release` frees each exactly
once. -/
theorem rep_payload_double_free :
    ((submit_single_io_rep c5_cfg c5_entry 10 c5_ora c5_ctxs
        c5_g).1.freed.count 100 = 2) ∧
      ((submit_single_io_rep c5_cfg c5_entry 10 c5_ora c5_ctxs
          c5_g).1.freed.count 50 = 2) ∧
      (rep_task_release c5_g).count 100 = 1 ∧
      (rep_task_release c5_g).count 50 = 1 := by
  decide

/-! ## C7 -/

/-- Conclusion of the amended claim C7: the queued-task resubmission loop of
`work_fn` never hands a task to `submit_io` while the context's
`is_draining` flag is set, and the N-th-completion decision of
`task_complete` re-emits (directly or onto the FIFO) only when every
sibling's context is not draining at decision time. -/
def DrainingRespected (cfg : PerfConfig) (stack : Nat → Nat)
    (rc : Nat → Int) (c : NsWorkerCtx) (ctxs : List NsWorkerCtx)
    (task : PerfTask) (g : RepGroup) : Prop :=
  ((resubmit_queued_tasks cfg stack rc c).calls.all
      (fun cl => !cl.draining_at_call) = true) ∧
  ((task_complete cfg ctxs task g).action = .reissued ∨
      (task_complete cfg ctxs task g).action = .pushed_to_fifo →
    g.rep_tasks.all
        (fun t => !(getCtx (task_complete cfg ctxs task g).ctxs
          t.ctx).is_draining) = true)

/-- Auxiliary: every `submit_io` call made by the swapped-queue drain is made
with the context's draining flag clear (the loop re-checks the flag before
each pop). -/
theorem resubmit_swapped_calls_not_draining (cfg : PerfConfig)
    (stack : Nat → Nat) (rc : Nat → Int) (l : List PerfTask) :
    ∀ (pos : Nat) (c : NsWorkerCtx),
      (resubmit_swapped cfg stack rc pos c l).calls.all
        (fun cl => !cl.draining_at_call) = true := by
  induction l with
  | nil => intro pos c; simp [resubmit_swapped]
  | cons t ts ih =>
    intro pos c
    by_cases hd : c.is_draining
    · simp only [resubmit_swapped, hd, if_true]
      exact ih (pos + 1) _
    · simp only [resubmit_swapped, hd, if_false, Bool.false_eq_true,
        List.all_cons, Bool.and_eq_true]
      refine And.intro ?_ (ih (pos + 1) _)
      simp [submit_single_io, hd]

/-- C7 (amended): the queued-task resubmission path submits only against
non-draining contexts, and the immediate reissue decision on the N-th
completion releases instead of re-emitting when any sibling context is
draining; the rate-gated FIFO drain, however, performs no such re-check
(see the counterexample). -/
theorem draining_respected (cfg : PerfConfig) (stack : Nat → Nat)
    (rc : Nat → Int) (c : NsWorkerCtx) (ctxs : List NsWorkerCtx)
    (task : PerfTask) (g : RepGroup) :
    DrainingRespected cfg stack rc c ctxs task g := by
  constructor
  · simp only [resubmit_queued_tasks]
    split
    · exact resubmit_swapped_calls_not_draining cfg stack rc _ 0 _
    · simp
  · intro hact
    by_cases hlt : g.rep_completed_num + 1 < cfg.g_rep_num
    · simp [task_complete, if_pos hlt] at hact
    · rw [task_complete_at_N cfg ctxs task g hlt] at hact
      cases hasg : assign_ids_or_release
          (setCtx ctxs task.ctx (task_complete_ctx_part (getCtx ctxs task.ctx)))
          (rep_next_io_id cfg g) g.rep_tasks with
      | none => rw [hasg] at hact; simp at hact
      | some ts =>
        have hndr := (assign_ids_or_release_some _ _ _ _ hasg).2
        rw [task_complete_at_N cfg ctxs task g hlt, hasg]
        rw [List.all_eq_true]
        intro t ht
        by_cases hio : cfg.io_num_per_second = 0 <;>
          simp only [hio, reduceIte] <;> simp [hndr t ht]

/-- Concrete configuration for the C7 counterexample: the rate limiter is
on, so reissues go through the pending FIFO. -/
def c7_cfg : PerfConfig :=
  { g_rep_num := 2, g_queue_depth := 1, g_continue_on_error := false,
    g_number_ios := 0, io_num_per_second := 1000, batch_size := 1,
    g_is_random := false, g_rw_percentage := 0 }

/-- A sequential namespace entry for the C7 counterexample. -/
def c7_entry : NsEntry :=
  { has_zipf := false, size_in_ios := 10, io_size_blocks := 8 }

/-- Oracle for the C7 counterexample: the transport accepts everything. -/
def c7_ora : SubmitOracle :=
  { zipf_val := 0, rand_off := 0, rand_rw := 0, rc := fun _ => 0 }

/-- Context table for the C7 counterexample after an in-flight completion on
context 1 failed with the hotplug status: `io_complete` marked context 1
draining. -/
def c7_ctxs : List NsWorkerCtx :=
  io_complete_hotplug_error [default, default] 1

/-- A pending two-sibling logical I/O for the C7 counterexample (primary on
context 0, copy on context 1), enqueued on the FIFO before the hotplug
error. -/
def c7_g : RepGroup := copy_task (allocate_main_task 1 0 0 100 11 50) 1 1 12

/-- Counterexample to C7 as stated: context 1 is draining, yet when the
rate gate pops the pending primary and hands it to
`submit_single_io_rep`, the walk calls `submit_io` for the copy sibling on
context 1 — a new submission against a draining context (the walk checks
no sibling context's flag). -/
theorem draining_submission_cex :
    (getCtx c7_ctxs 1).is_draining = true ∧
      gate_drain 0 1 [c7_g] [] = .ok [] 1 [c7_g] ∧
      ((submit_single_io_rep c7_cfg c7_entry 10 c7_ora c7_ctxs c7_g).1.calls.map
        (fun cl => (cl.ctx, cl.draining_at_call))) = [(0, false), (1, true)] := by
  decide


/-! ## C8 -/

/-- One data row in the shape the claim's row format prescribes: the id and
namespace columns, a stage name, a latency, an io count, and the quotient
of that latency by that count. -/
def claimRow (n num i : Nat) (name : StageName) (latency : Timespec)
    (io_num : Nat) : CsvLine :=
  CsvLine.row
    { id := num / n, ns_id := i, name := name, latency := latency,
      io_num := io_num, avg := timespec_divide latency (io_num : Int) }

/-- The six data rows the amended claim C8 predicts for one namespace-group
at call counter `num`, in stage order: every row carries its own
accumulated latency; every row except `wr_send` pairs it with its own io
count; the `wr_send` row instead pairs the `wr_send` latency with the
`wr_complete` io count; a blank line follows only the final
namespace-group (`i = n - 1`). -/
def csvGroupAmended (n num i : Nat) (d : LatencyNsLog) : List CsvLine :=
  [claimRow n num i .task_queue d.task_queue_latency.latency_time
     d.task_queue_latency.io_num,
   claimRow n num i .task_complete d.task_complete_latency.latency_time
     d.task_complete_latency.io_num,
   claimRow n num i .req_send d.req_send_latency.latency_time
     d.req_send_latency.io_num,
   claimRow n num i .req_complete d.req_complete_latency.latency_time
     d.req_complete_latency.io_num,
   claimRow n num i .wr_send d.wr_send_latency.latency_time
     d.wr_complete_latency.io_num,
   claimRow n num i .wr_complete d.wr_complete_latency.latency_time
     d.wr_complete_latency.io_num] ++
  (if i = n - 1 then [CsvLine.blank] else [])

/-- The lines the amended claim C8 predicts for the `r` namespace-groups
`i, i+1, …` of one message, starting at call counter `num`. -/
def csvLinesAmended (n : Nat) (data : List LatencyNsLog) :
    Nat → Nat → Nat → List CsvLine
  | 0, _, _ => []
  | r + 1, num, i =>
      csvGroupAmended n num i (data.getD i default) ++
        csvLinesAmended n data r (num + 1) (i + 1)

/-- The rows claim C8, as stated, predicts for one namespace-group: six rows
in stage order, *each* reporting that stage's own accumulated latency, its
own io count and their quotient, with a blank line terminating *every*
namespace-group. -/
def csvGroupClaim (n num i : Nat) (d : LatencyNsLog) : List CsvLine :=
  [claimRow n num i .task_queue d.task_queue_latency.latency_time
     d.task_queue_latency.io_num,
   claimRow n num i .task_complete d.task_complete_latency.latency_time
     d.task_complete_latency.io_num,
   claimRow n num i .req_send d.req_send_latency.latency_time
     d.req_send_latency.io_num,
   claimRow n num i .req_complete d.req_complete_latency.latency_time
     d.req_complete_latency.io_num,
   claimRow n num i .wr_send d.wr_send_latency.latency_time
     d.wr_send_latency.io_num,
   claimRow n num i .wr_complete d.wr_complete_latency.latency_time
     d.wr_complete_latency.io_num,
   CsvLine.blank]

/-- The lines claim C8, as stated, predicts for the `r` namespace-groups
`i, i+1, …` of one message, starting at call counter `num`. -/
def csvLinesClaim (n : Nat) (data : List LatencyNsLog) :
    Nat → Nat → Nat → List CsvLine
  | 0, _, _ => []
  | r + 1, num, i =>
      csvGroupClaim n num i (data.getD i default) ++
        csvLinesClaim n data r (num + 1) (i + 1)

/-- Auxiliary: one loop step of `write_latency_tasks_log` on an already
opened file emits exactly one amended namespace-group and advances the
call counter. -/
theorem write_latency_tasks_log_step_lines (n : Nat) (st : LogFileState)
    (d : LatencyNsLog) (i : Nat) (h : st.if_open = true) :
    write_latency_tasks_log_step n st d i =
      ({ if_open := true, num := st.num + 1 },
        csvGroupAmended n st.num i d) := by
  simp [write_latency_tasks_log_step, write_log_tasks_to_file, fprint_log,
    csvGroupAmended, claimRow, h]

/-- Auxiliary: the loop of `write_latency_tasks_log` over the indexes
`s, s+1, …, s+r-1` emits the amended groups in order. -/
theorem write_latency_tasks_log_loop (n : Nat) (data : List LatencyNsLog) :
    ∀ (r s num : Nat) (acc : List CsvLine),
      ((List.range' s r).foldl
        (fun (a : LogFileState × List CsvLine) i =>
          let rr := write_latency_tasks_log_step n a.1 (data.getD i default) i
          (rr.1, a.2 ++ rr.2))
        (⟨true, num⟩, acc)) =
      (⟨true, num + r⟩, acc ++ csvLinesAmended n data r num s) := by
  intro r
  induction r with
  | zero => intro s num acc; simp [csvLinesAmended]
  | succ r ih =>
    intro s num acc
    rw [List.range'_succ, List.foldl_cons]
    have hstep := write_latency_tasks_log_step_lines n ⟨true, num⟩
      (data.getD s default) s rfl
    simp only [hstep]
    rw [ih (s + 1) (num + 1)
      (acc ++ csvGroupAmended n num s (data.getD s default))]
    rw [List.append_assoc]
    simp only [csvLinesAmended]
    have harith : num + 1 + r = num + (r + 1) := by omega
    rw [harith]

/-- Conclusion of the amended claim C8: on an already opened file, one
aggregation message produces exactly the amended lines and advances the
call counter by `namespace_num`. -/
def CsvEmission (n : Nat) (data : List LatencyNsLog) (st : LogFileState) :
    Prop :=
  write_latency_tasks_log n data st =
    ({ if_open := true, num := st.num + n }, csvLinesAmended n data n st.num 0)

/-- C8 (amended): when the host CSV writer processes one aggregation
message it emits, for each namespace, exactly six rows in the order
`task_queue, task_complete, req_send, req_complete, wr_send, wr_complete`,
each reporting that stage's accumulated latency; every row but `wr_send`
reports its own io count and quotient, while the `wr_send` row reports the
`wr_complete` io count (and the quotient of the `wr_send` latency by that
count); a single blank line follows the final namespace-group of the
message rather than each group. -/
theorem write_latency_tasks_log_amended (n : Nat)
    (data : List LatencyNsLog) (st : LogFileState)
    (h : st.if_open = true) : CsvEmission n data st := by
  obtain ⟨o, num⟩ := st
  simp only at h
  subst h
  simp only [CsvEmission, write_latency_tasks_log]
  rw [List.range_eq_range']
  have hloop := write_latency_tasks_log_loop n data n 0 num []
  simpa using hloop

/-- Accumulators of namespace 0 for the C8 counterexample: the `wr_send`
stage recorded 3 samples totalling 6 s, the `wr_complete` stage 5 samples
totalling 10 s. -/
def c8_d0 : LatencyNsLog where
  task_queue_latency := ⟨⟨1, 0⟩, 2⟩
  task_complete_latency := ⟨⟨2, 0⟩, 2⟩
  req_send_latency := ⟨⟨3, 0⟩, 2⟩
  req_complete_latency := ⟨⟨4, 0⟩, 2⟩
  wr_send_latency := ⟨⟨6, 0⟩, 3⟩
  wr_complete_latency := ⟨⟨10, 0⟩, 5⟩

/-- All-zero accumulators of namespace 1 for the C8 counterexample. -/
def c8_d1 : LatencyNsLog := default

/-- File state for the C8 counterexample: header already written. -/
def c8_st : LogFileState := { if_open := true, num := 0 }

/-- Counterexample to C8 as stated, on a two-namespace message: the emitted
lines differ from the claim's prediction — the `wr_send` row (the fifth
emitted line) reports io count 5, the `wr_complete` stage's count, not the
`wr_send` stage's own count 3, and its average divides the `wr_send`
latency by 5; and the line after namespace 0's six rows is namespace 1's
first data row, not the blank line the claim requires after every group. -/
theorem csv_wr_send_count_cex :
    (write_latency_tasks_log 2 [c8_d0, c8_d1] c8_st).2 ≠
        csvLinesClaim 2 [c8_d0, c8_d1] 2 0 0 ∧
      ((write_latency_tasks_log 2 [c8_d0, c8_d1] c8_st).2.getD 4 .header =
        claimRow 2 0 0 .wr_send ⟨6, 0⟩ 5) ∧
      c8_d0.wr_send_latency.io_num = 3 ∧
      ((write_latency_tasks_log 2 [c8_d0, c8_d1] c8_st).2.getD 6 .header ≠
        CsvLine.blank) := by
  decide

/-- Witness for the amended C8 at the concrete two-namespace message. -/
theorem write_latency_tasks_log_amended_witness :
    c8_st.if_open = true ∧ CsvEmission 2 [c8_d0, c8_d1] c8_st :=
  ⟨rfl, write_latency_tasks_log_amended 2 [c8_d0, c8_d1] c8_st rfl⟩

/-! ## C9 -/

/-- Auxiliary: `timespec_add` is exact for the total-nanosecond measure. -/
theorem timespec_add_nanos (a b : Timespec) :
    (timespec_add a b).nanos = a.nanos + b.nanos := by
  simp only [timespec_add, Timespec.nanos]
  split <;> ring

/-- Auxiliary: a sampler tick neither adds nor removes nanoseconds or
samples for any namespace: under the single `log_mutex` critical section it
moves the accumulator's content into exactly one newly posted message and
zeroes the accumulator. -/
theorem logPipelineStep_tick (n ns : Nat) (s : LogPipelineState) :
    heldNanos (logPipelineStep n s .tick) ns = heldNanos s ns ∧
      heldCount (logPipelineStep n s .tick) ns = heldCount s ns := by
  simp only [logPipelineStep]
  split
  · simp [heldNanos, heldCount, LatencyLog.zero, Timespec.zero,
      Timespec.nanos]
  · exact ⟨rfl, rfl⟩

/-- Auxiliary: a mutex-protected accumulator update adds exactly its own
duration and one sample to its own namespace's held measures. -/
theorem logPipelineStep_record (n ns m : Nat) (dur : Timespec)
    (s : LogPipelineState) :
    heldNanos (logPipelineStep n s (.record m dur)) ns =
        heldNanos s ns + (if m = ns then dur.nanos else 0) ∧
      heldCount (logPipelineStep n s (.record m dur)) ns =
        heldCount s ns + (if m = ns then 1 else 0) := by
  simp only [logPipelineStep, heldNanos, heldCount]
  by_cases hm : ns = m
  · subst hm
    simp [timespec_add_nanos]
    constructor <;> ring
  · have hm' : ¬(m = ns) := fun h => hm h.symm
    simp [hm, hm']

/-- Auxiliary: conservation of the held measures along any event trace, from
any starting state. -/
theorem logPipeline_conservation_aux (n ns : Nat) (evs : List LogEvent) :
    ∀ s : LogPipelineState,
      heldNanos (evs.foldl (logPipelineStep n) s) ns =
          heldNanos s ns + recordedNanos ns evs ∧
        heldCount (evs.foldl (logPipelineStep n) s) ns =
          heldCount s ns + recordedCount ns evs := by
  induction evs with
  | nil => intro s; simp [recordedNanos, recordedCount]
  | cons ev evs ih =>
    intro s
    obtain ⟨ih1, ih2⟩ := ih (logPipelineStep n s ev)
    rw [List.foldl_cons]
    cases ev with
    | record m dur =>
      obtain ⟨h1, h2⟩ := logPipelineStep_record n ns m dur s
      constructor
      · rw [ih1, h1]
        simp only [recordedNanos]
        ring
      · rw [ih2, h2]
        simp only [recordedCount]
        ring
    | tick =>
      obtain ⟨h1, h2⟩ := logPipelineStep_tick n ns s
      constructor
      · rw [ih1, h1]
        simp [recordedNanos]
      · rw [ih2, h2]
        simp [recordedCount]

/-- C9: the latency-aggregation pipeline loses no sample between the
sampler's snapshot and its zeroing of the in-memory accumulators.  Each
accumulator update (`task_queue` in `nvme_submit_io`, `task_complete` in
`task_complete`) and the sampler's snapshot-post-reset sequence
(`latency_log_1s`) is one critical section of the single `log_mutex`, so a
run of the pipeline is a sequence of these events executed atomically in
some order; along every such trace, for every namespace, the nanoseconds
and the sample count held by the posted messages plus the live accumulator
equal exactly what was recorded — every recorded duration ends up in
exactly one posted message once a tick has snapshotted it, and is never
duplicated or dropped by the reset. -/
theorem latency_pipeline_no_sample_loss (n : Nat) (evs : List LogEvent)
    (ns : Nat) :
    heldNanos (logPipelineRun n evs) ns = recordedNanos ns evs ∧
      heldCount (logPipelineRun n evs) ns = recordedCount ns evs := by
  have h := logPipeline_conservation_aux n ns evs logPipelineInit
  simpa [logPipelineRun, logPipelineInit, heldNanos, heldCount,
    LatencyLog.zero, Timespec.zero, Timespec.nanos] using h

end NofRep
